import Mathlib

/-!
Verification of the grid posterior engine of `1-UnivariateBayes.ipynb`.

The notebook performs univariate Bayesian parameter estimation on small
one-dimensional grids: a likelihood vector and a prior vector aligned to a
grid of candidate parameter values are multiplied pointwise, the product is
normalized by composite trapezoidal quadrature (`np.trapz` with uniform
spacing `dx`), and a validator (`test_norm`) asserts that the resulting
posterior re-integrates to one within two significant digits
(`numpy.testing.assert_approx_equal`).

The embedding below translates each of those pieces from the notebook
source.  Real-valued vectors are `List ℝ`.  Code paths that can raise a
Python exception are modelled with `Except PyError`; code paths that are
straight-line numpy expressions (which warn but never raise) are total
functions wrapped in `Except.ok`.
-/

namespace UnivariateBayes

/-- Python exception kinds relevant to the notebook: `TypeError` (raised by
numpy when iterating a 0-d array), plus the error taxonomy named by the
design spec (`InvalidParameterError`, `NonIntegrableDensityError`,
`NormalizationError`). -/
inductive PyError where
  | typeError : PyError
  | invalidParameterError : PyError
  | nonIntegrableDensityError : PyError
  | normalizationError : PyError
deriving DecidableEq

/-- Argument or result of a numpy-polymorphic function: either a scalar
(a 0-d array after `asarray`) or a vector. -/
inductive NpVal where
  | scalar : ℝ → NpVal
  | vec : List ℝ → NpVal

/-- Composite trapezoidal rule with uniform spacing, `np.trapz(y, dx=dx)`:
the sum of `dx * (y i + y (i+1)) / 2` over consecutive pairs. -/
noncomputable def trapz : List ℝ → ℝ → ℝ
  | x :: y :: rest, dx => dx * (x + y) / 2 + trapz (y :: rest) dx
  | _, _ => 0

/-- The posterior normalizer of the notebook (`numer = prior*like;
denom = np.trapz(numer, dx=dx); post_pdf = numer/denom`): pointwise product
of prior and likelihood divided by its trapezoidal integral. -/
noncomputable def post_pdf (prior likev : List ℝ) (dx : ℝ) : List ℝ :=
  (List.zipWith (· * ·) prior likev).map
    (fun x => x / trapz (List.zipWith (· * ·) prior likev) dx)

/-- Running the normalizer cell: the numpy expression `numer/denom` never
raises a Python exception (division by zero merely emits a runtime warning
and produces non-finite entries), so the run always returns the vector. -/
noncomputable def post_pdf_run (prior likev : List ℝ) (dx : ℝ) :
    Except PyError (List ℝ) :=
  .ok (post_pdf prior likev dx)

/-- Pointwise Poisson likelihood of the notebook, dropping the factorial:
`like = (rtvals)**n * exp(-rtvals)` with `rtvals = r*T`. -/
noncomputable def poisson_like_at (n : ℕ) (T r : ℝ) : ℝ :=
  (r * T) ^ n * Real.exp (-(r * T))

/-- Poisson likelihood vector over a rate grid (the notebook symbol `like`). -/
noncomputable def poisson_like (n : ℕ) (T : ℝ) (rs : List ℝ) : List ℝ :=
  rs.map (poisson_like_at n T)

/-- Running the Poisson likelihood cell: the vectorized expression contains
no validation and no log or sqrt, so it always returns (negative rates are
silently evaluated). -/
noncomputable def evaluate_likelihood_poisson (n : ℕ) (T : ℝ) (rs : List ℝ) :
    Except PyError (List ℝ) :=
  .ok (poisson_like n T rs)

/-- Normal likelihood at a single location `mu` with known standard
deviation `sig` (notebook `norm_like` body for one grid point):
`exp(-0.5 * sum((data - mu)**2) / sig**2)`. -/
noncomputable def norm_like_at (data : List ℝ) (sig mu : ℝ) : ℝ :=
  Real.exp (-(1 / 2) * (((data.map (fun x => (x - mu) ^ 2)).sum) / (sig * sig)))

/-- Normal likelihood vector over a location grid. -/
noncomputable def norm_like_vec (data mus : List ℝ) (sig : ℝ) : List ℝ :=
  mus.map (norm_like_at data sig)

/-- The notebook function `norm_like(data, muvals, sig)`.  Its body is
`muvals = asarray(muvals); q = array([sum((data - mu)**2)/sig2 for mu in
muvals]); return exp(-0.5*q)`.  For a scalar argument, `asarray` yields a
0-d numpy array, and the list comprehension iterates over it, which raises
`TypeError: iteration over a 0-d array`; only the vector branch returns. -/
noncomputable def norm_like (data : List ℝ) (muvals : NpVal) (sig : ℝ) :
    Except PyError NpVal :=
  match muvals with
  | .scalar _ => .error .typeError
  | .vec ms => .ok (.vec (norm_like_vec data ms sig))

/-- Cauchy likelihood at a single location `x0` with known scale (notebook
`cauchy_like` body for one grid point):
`prod(1/(1 + (x0 - data)**2/scale**2))`. -/
noncomputable def cauchy_like_at (data : List ℝ) (scale x0 : ℝ) : ℝ :=
  (data.map (fun x => 1 / (1 + (x0 - x) ^ 2 / scale ^ 2))).prod

/-- Cauchy likelihood vector over a location grid. -/
noncomputable def cauchy_like_vec (data xs : List ℝ) (scale : ℝ) : List ℝ :=
  xs.map (cauchy_like_at data scale)

/-- The notebook function `cauchy_like(data, x0vals, scale)`: it inspects
the shape of `asarray(x0vals)` and explicitly handles both the scalar
(0-d) case, returning a scalar, and the vector case, returning a vector. -/
noncomputable def cauchy_like (data : List ℝ) (x0vals : NpVal) (scale : ℝ) :
    Except PyError NpVal :=
  match x0vals with
  | .scalar x0 => .ok (.scalar (cauchy_like_at data scale x0))
  | .vec xs => .ok (.vec (cauchy_like_vec data xs scale))

/-- Bounded flat prior of the notebook:
`prior_pdf = ones_like(rvals)/(prior_u - prior_l)`. -/
noncomputable def flat_prior (grid : List ℝ) (lo hi : ℝ) : List ℝ :=
  grid.map (fun _ => 1 / (hi - lo))

/-- Density of `scipy.stats.gamma(1, scale=scale)` (the exponential
distribution): `exp(-r/scale)/scale` for nonnegative `r`, zero below the
support. -/
noncomputable def gamma1_pdf (scale r : ℝ) : ℝ :=
  if r < 0 then 0 else Real.exp (-(r / scale)) / scale

/-- Exponential (gamma with shape one) prior vector of the notebook:
`prior.pdf(rvals)` for `prior = stats.gamma(1, scale=scale)`. -/
noncomputable def exp_prior (grid : List ℝ) (scale : ℝ) : List ℝ :=
  grid.map (gamma1_pdf scale)

/-- The grid constructor `np.linspace(a, b, n)`: `n` evenly spaced values
from `a` to `b` inclusive, the i-th being `a + (b - a) * i / (n - 1)`. -/
noncomputable def linspace (a b : ℝ) (n : ℕ) : List ℝ :=
  (List.range n).map (fun i => a + (b - a) * i / ((n : ℝ) - 1))

/-- The notebook rate grid `rvals = linspace(0., 20., 200)`. -/
noncomputable def rvals : List ℝ := linspace 0 20 200

/-- The notebook spacing `dr = rvals[1] - rvals[0]`. -/
noncomputable def dr : ℝ := rvals.getD 1 0 - rvals.getD 0 0

/-- The notebook flat prior over the rate grid, with bound `[0, 1e5]`:
`prior_pdf = ones_like(rvals)/(prior_u - prior_l)`. -/
noncomputable def prior_vals : List ℝ := flat_prior rvals 0 100000

/-- The flat-prior Poisson posterior of the notebook for data `(n, T)`
(cases 1 and 3 of the notebook: `(16, 2.)` giving `post_pdf` and
`(80, 10.)` giving `post_pdf3`). -/
noncomputable def post_case (n : ℕ) (T : ℝ) : List ℝ :=
  post_pdf prior_vals (poisson_like n T rvals) dr

/-- Modelled from the spec: the mean of a grid posterior, the first moment
computed by the same trapezoidal rule over the same grid.  The notebook
itself extracts no summary statistics; the spec speaks of the spread
(variance) of the discretized PDF, so the moments are quadratures of
`r * p(r)` and `r^2 * p(r)`. -/
noncomputable def grid_mean (grid pdf : List ℝ) (dx : ℝ) : ℝ :=
  trapz (List.zipWith (· * ·) grid pdf) dx

/-- Modelled from the spec: the variance (squared spread) of a grid
posterior via trapezoidal quadrature, `E[r^2] - (E[r])^2`. -/
noncomputable def grid_var (grid pdf : List ℝ) (dx : ℝ) : ℝ :=
  trapz (List.zipWith (fun r p => r ^ 2 * p) grid pdf) dx - grid_mean grid pdf dx ^ 2

/-- Shorthand for `exp (-(40/199))`, the geometric ratio of the Poisson
likelihood factors along the notebook rate grid: at the i-th grid point
`exp(-r_i * T) = tq ^ ((T/2) * i)` for the exposures `T = 2` and `T = 10`. -/
noncomputable def tq : ℝ := Real.exp (-(40 / 199))

/-- Trapezoid-weighted power sum: the quantity `trapz` produces on the
200-point grid for an integrand of the form `i^p * w^i`. -/
noncomputable def momB (p : ℕ) (w : ℝ) : ℝ :=
  (Finset.range 199).sum (fun i => ((i : ℝ) ^ p * w ^ i + ((i : ℝ) + 1) ^ p * w ^ (i + 1)) / 2)

/-- Rational version of `momB`, used to evaluate certified bounds. -/
def momBQ (p : ℕ) (w : ℚ) : ℚ :=
  (Finset.range 199).sum (fun i => ((i : ℚ) ^ p * w ^ i + ((i : ℚ) + 1) ^ p * w ^ (i + 1)) / 2)

/-- Certified rational lower bound for `tq = exp (-(40/199))`. -/
def qaQ : ℚ := 81790832131247 / 100000000000000

/-- Certified rational upper bound for `tq = exp (-(40/199))`. -/
def qbQ : ℚ := 81790832146118 / 100000000000000

/-- The power-of-ten normalization factor of
`numpy.testing.assert_approx_equal`: `10**floor(log10(scale))` with
`scale = (|desired| + |actual|)/2`.  For positive arguments `Int.log 10`
is exactly the floor of the base-ten logarithm. -/
noncomputable def approx_scale (actual desired : ℝ) : ℝ :=
  (10 : ℝ) ^ (Int.log 10 ((|desired| + |actual|) / 2))

/-- Failure condition of `numpy.testing.assert_approx_equal(actual,
desired, significant)`: the call raises `AssertionError` exactly when the
values are unequal and their difference, rescaled by `approx_scale`, is at
least `10**(-(significant-1))`. -/
noncomputable def assert_approx_equal_fails (actual desired : ℝ) (significant : ℕ) : Prop :=
  actual ≠ desired ∧
    (10 : ℝ) ^ ((1 : ℤ) - significant) ≤
      |desired / approx_scale actual desired - actual / approx_scale actual desired|

/-- The notebook validator `test_norm(ppdf, delta)` asserts
`assert_approx_equal(np.trapz(ppdf, dx=delta), 1., 2)`; this proposition
states that the assertion fails, i.e. that `test_norm` raises. -/
noncomputable def test_norm_raises (ppdf : List ℝ) (delta : ℝ) : Prop :=
  assert_approx_equal_fails (trapz ppdf delta) 1 2

attribute [local semireducible] Rat.mul Rat.add Rat.sub Rat.inv

/-! ### Helper lemmas about the trapezoidal rule -/

theorem trapz_cons_cons (x y : ℝ) (rest : List ℝ) (dx : ℝ) :
    trapz (x :: y :: rest) dx = dx * (x + y) / 2 + trapz (y :: rest) dx := rfl

theorem trapz_map_div (l : List ℝ) (c dx : ℝ) :
    trapz (l.map (fun x => x / c)) dx = trapz l dx / c := by
  induction l with
  | nil => simp [trapz]
  | cons x rest ih =>
    cases rest with
    | nil => simp [trapz]
    | cons y rest2 =>
      simp only [List.map_cons] at ih ⊢
      rw [trapz_cons_cons, trapz_cons_cons, ih]
      ring

theorem trapz_replicate_one (n : ℕ) (dx : ℝ) :
    trapz (List.replicate (n + 1) (1 : ℝ)) dx = n * dx := by
  induction n with
  | zero => simp [trapz]
  | succ m ih =>
    have h2 : List.replicate (m + 2) (1 : ℝ) = 1 :: 1 :: List.replicate m 1 := by
      simp [List.replicate_succ]
    have h1 : List.replicate (m + 1) (1 : ℝ) = 1 :: List.replicate m 1 := by
      simp [List.replicate_succ]
    rw [h2, trapz_cons_cons, ← h1, ih]
    push_cast
    ring

/-! ### Claim C1 -/

/-- Claim C1: for aligned prior and likelihood vectors whose pointwise
product has a strictly positive (hence finite) trapezoidal integral, the
output of the posterior normalizer re-integrates, by the same trapezoidal
rule with the same spacing, to 1 within 1 percent relative tolerance
(indeed exactly, in real arithmetic). -/
theorem C1_normalize_posterior_integrates_to_one (prior likev : List ℝ) (dx : ℝ)
    (hlen : prior.length = likev.length) (hN : 2 ≤ prior.length)
    (hZ : 0 < trapz (List.zipWith (· * ·) prior likev) dx) :
    |trapz (post_pdf prior likev dx) dx - 1| ≤ 1 / 100 := by
  unfold post_pdf
  rw [trapz_map_div, div_self (ne_of_gt hZ)]
  norm_num

/-- Witness for C1 at the concrete input `prior = like = [1, 1]`, `dx = 1`. -/
theorem C1_witness :
    ([(1 : ℝ), 1].length = [(1 : ℝ), 1].length ∧ 2 ≤ [(1 : ℝ), 1].length ∧
        0 < trapz (List.zipWith (· * ·) [(1 : ℝ), 1] [(1 : ℝ), 1]) 1) ∧
      |trapz (post_pdf [(1 : ℝ), 1] [(1 : ℝ), 1] 1) 1 - 1| ≤ 1 / 100 := by
  have hZ : 0 < trapz (List.zipWith (· * ·) [(1 : ℝ), 1] [(1 : ℝ), 1]) 1 := by
    norm_num [List.zipWith, trapz]
  exact ⟨⟨rfl, by norm_num, hZ⟩,
    C1_normalize_posterior_integrates_to_one _ _ _ rfl (by norm_num) hZ⟩

/-! ### Claim C2 -/

/-- Claim C2: the validator `test_norm` raises exactly when the recomputed
trapezoidal integral differs from 1 by at least the two-significant-digit
relative tolerance (one tenth of the power-of-ten scale of the compared
values), and in particular it raises on the all-ones vector over the
200-point rate grid on `[0, 20]`. -/
theorem C2_test_norm_raises_iff :
    (∀ (ppdf : List ℝ) (delta : ℝ),
        test_norm_raises ppdf delta ↔
          1 / 10 * (10 : ℝ) ^ (Int.log 10 ((1 + |trapz ppdf delta|) / 2)) ≤
            |trapz ppdf delta - 1|) ∧
      test_norm_raises (List.replicate 200 (1 : ℝ)) (20 / 199) := by
  have habs1 : |(1 : ℝ)| = 1 := by norm_num
  have main : ∀ (ppdf : List ℝ) (delta : ℝ),
      test_norm_raises ppdf delta ↔
        1 / 10 * (10 : ℝ) ^ (Int.log 10 ((1 + |trapz ppdf delta|) / 2)) ≤
          |trapz ppdf delta - 1| := by
    intro ppdf delta
    unfold test_norm_raises assert_approx_equal_fails approx_scale
    rw [habs1]
    set I := trapz ppdf delta with hIdef
    set e := Int.log 10 ((1 + |I|) / 2) with hedef
    have hs : (0 : ℝ) < 10 ^ e := zpow_pos (by norm_num) e
    have hpow : (10 : ℝ) ^ ((1 : ℤ) - (2 : ℕ)) = 1 / 10 := by norm_num
    have key : ((10 : ℝ) ^ ((1 : ℤ) - (2 : ℕ)) ≤ |1 / 10 ^ e - I / 10 ^ e|) ↔
        1 / 10 * 10 ^ e ≤ |I - 1| := by
      rw [div_sub_div_same, abs_div, abs_of_pos hs, abs_sub_comm, le_div_iff hs, hpow]
    constructor
    · rintro ⟨_, hle⟩
      exact key.mp hle
    · intro h
      refine ⟨fun h1 => ?_, key.mpr h⟩
      rw [h1, sub_self, abs_zero] at h
      have : (0 : ℝ) < 1 / 10 * 10 ^ e := mul_pos (by norm_num) hs
      linarith
  refine ⟨main, ?_⟩
  have hI : trapz (List.replicate 200 (1 : ℝ)) (20 / 199) = 20 := by
    have h := trapz_replicate_one 199 ((20 : ℝ) / 199)
    norm_num at h
    convert h using 2
  rw [main, hI]
  have hlog : Int.log 10 ((1 + |(20 : ℝ)|) / 2) = 1 := by
    have h21 : ((1 : ℝ) + |(20 : ℝ)|) / 2 = 21 / 2 := by norm_num
    rw [h21, Int.log_of_one_le_right _ (by norm_num)]
    have hfl : ⌊(21 / 2 : ℝ)⌋₊ = 10 := by
      rw [Nat.floor_eq_iff] <;> norm_num
    rw [hfl]
    have : Nat.log 10 10 = 1 := Nat.log_eq_of_pow_le_of_lt_pow (by norm_num) (by norm_num)
    simp [this]
  rw [hlog]
  norm_num

/-- Witness for C2: the validator raises on the all-ones vector. -/
theorem C2_witness : test_norm_raises (List.replicate 200 (1 : ℝ)) (20 / 199) :=
  C2_test_norm_raises_iff.2

/-! ### Claim C3 -/

/-- Counterexample to claim C3: with an everywhere-zero likelihood the
normalizing constant is zero, yet the normalizer cell does not fail with
`NonIntegrableDensityError`; the numpy division merely warns and a vector
is still returned. -/
theorem C3_counterexample :
    post_pdf_run [(1 : ℝ), 1] [(0 : ℝ), 0] 1 ≠
      Except.error PyError.nonIntegrableDensityError := by
  intro h
  exact Except.noConfusion h

/-- Amended claim C3: the normalizer performs no check on the normalizing
constant; for every input it returns (never raises) the elementwise
quotient, a vector as long as the shorter of prior and likelihood, even
when the constant is zero. -/
theorem C3_amended (prior likev : List ℝ) (dx : ℝ) :
    post_pdf_run prior likev dx = Except.ok (post_pdf prior likev dx) ∧
      (post_pdf prior likev dx).length = min prior.length likev.length := by
  refine ⟨rfl, ?_⟩
  simp [post_pdf]

/-! ### Claim C4 -/

/-- Counterexample to claim C4: a grid containing the out-of-support rate
`-1` does not make the Poisson likelihood cell fail with
`InvalidParameterError`. -/
theorem C4_counterexample :
    evaluate_likelihood_poisson 16 2 [(-1 : ℝ)] ≠
      Except.error PyError.invalidParameterError := by
  intro h
  exact Except.noConfusion h

/-- Amended claim C4: the likelihood evaluator performs no support
validation and never raises; at the negative rate `-1` (with `n = 16`,
`T = 2`) it silently evaluates to the finite positive value
`2^16 * exp 2`. -/
theorem C4_amended :
    (∀ (n : ℕ) (T : ℝ) (rs : List ℝ),
        evaluate_likelihood_poisson n T rs = Except.ok (poisson_like n T rs)) ∧
      poisson_like 16 2 [(-1 : ℝ)] = [2 ^ 16 * Real.exp 2] := by
  refine ⟨fun n T rs => rfl, ?_⟩
  have harg : ((-1 : ℝ)) * 2 = -2 := by norm_num
  simp only [poisson_like, poisson_like_at, List.map_cons, List.map_nil, harg]
  norm_num

/-! ### Claim C5 -/

/-- Claim C5 (code bug): `cauchy_like` handles a scalar argument and
returns a scalar, but `norm_like`, whose docstring promises the same
scalar-or-vector polymorphism, raises `TypeError` on a scalar argument
because its list comprehension iterates over the 0-d array produced by
`asarray`. -/
theorem C5_norm_like_scalar_raises :
    norm_like [(1 : ℝ)] (NpVal.scalar 5) 3 = Except.error PyError.typeError ∧
      cauchy_like [(1 : ℝ)] (NpVal.scalar 5) 3 =
        Except.ok (NpVal.scalar (cauchy_like_at [(1 : ℝ)] 3 5)) ∧
      ∀ (ms : List ℝ),
        norm_like [(1 : ℝ)] (NpVal.vec ms) 3 =
          Except.ok (NpVal.vec (norm_like_vec [(1 : ℝ)] ms 3)) :=
  ⟨rfl, rfl, fun ms => rfl⟩

/-! ### Claim C6 -/

theorem poisson_like_hasDeriv (n : ℕ) (hn : 0 < n) (T r : ℝ) :
    HasDerivAt (poisson_like_at n T)
      (T * Real.exp (-(r * T)) * (r * T) ^ (n - 1) * ((n : ℝ) - r * T)) r := by
  have h1 : HasDerivAt (fun r : ℝ => r * T) T r := by
    simpa using (hasDerivAt_id r).mul_const T
  have h2 : HasDerivAt (fun r : ℝ => (r * T) ^ n) ((n : ℝ) * (r * T) ^ (n - 1) * T) r :=
    h1.pow n
  have h3 : HasDerivAt (fun r : ℝ => -(r * T)) (-T) r := h1.neg
  have h4 : HasDerivAt (fun r : ℝ => Real.exp (-(r * T))) (Real.exp (-(r * T)) * -T) r :=
    h3.exp
  have h5 := h2.mul h4
  have hpow : (r * T) ^ n = (r * T) ^ (n - 1) * (r * T) := by
    conv_lhs => rw [← Nat.succ_pred_eq_of_pos hn]
    rw [pow_succ, Nat.pred_eq_sub_one]
  unfold poisson_like_at
  convert h5 using 1
  rw [hpow]
  ring

theorem poisson_like_strictMonoOn (n : ℕ) (T : ℝ) (hn : 0 < n) (hT : 0 < T) :
    StrictMonoOn (poisson_like_at n T) (Set.Icc 0 ((n : ℝ) / T)) := by
  apply strictMonoOn_of_deriv_pos (convex_Icc _ _)
  · apply Continuous.continuousOn
    unfold poisson_like_at
    fun_prop
  · intro x hx
    rw [interior_Icc] at hx
    obtain ⟨hx0, hxn⟩ := hx
    rw [(poisson_like_hasDeriv n hn T x).deriv]
    have hxT : 0 < x * T := mul_pos hx0 hT
    have h1 : 0 < (x * T) ^ (n - 1) := pow_pos hxT _
    have h2 : 0 < (n : ℝ) - x * T := by
      rw [lt_div_iff hT] at hxn
      linarith
    exact mul_pos (mul_pos (mul_pos hT (Real.exp_pos _)) h1) h2

theorem poisson_like_strictAntiOn (n : ℕ) (T : ℝ) (hn : 0 < n) (hT : 0 < T) :
    StrictAntiOn (poisson_like_at n T) (Set.Ici ((n : ℝ) / T)) := by
  have hnT : 0 < (n : ℝ) / T := by positivity
  apply strictAntiOn_of_deriv_neg (convex_Ici _)
  · apply Continuous.continuousOn
    unfold poisson_like_at
    fun_prop
  · intro x hx
    rw [interior_Ici, Set.mem_Ioi] at hx
    rw [(poisson_like_hasDeriv n hn T x).deriv]
    have hx0 : 0 < x := lt_trans hnT hx
    have hxT : 0 < x * T := mul_pos hx0 hT
    have h1 : 0 < (x * T) ^ (n - 1) := pow_pos hxT _
    have h2 : (n : ℝ) - x * T < 0 := by
      rw [div_lt_iff hT] at hx
      linarith
    exact mul_neg_of_pos_of_neg (mul_pos (mul_pos hT (Real.exp_pos _)) h1) h2

/-- Claim C6: for fixed counts `n > 0` and exposure `T > 0`, the Poisson
likelihood `r ↦ (r T)^n exp(-r T)` is unimodal on the nonnegative rates:
strictly increasing up to `n/T`, strictly decreasing beyond it, with its
unique mode at `r = n/T`. -/
theorem C6_poisson_likelihood_unimodal (n : ℕ) (T : ℝ) (hn : 0 < n) (hT : 0 < T) :
    StrictMonoOn (poisson_like_at n T) (Set.Icc 0 ((n : ℝ) / T)) ∧
      StrictAntiOn (poisson_like_at n T) (Set.Ici ((n : ℝ) / T)) ∧
      ∀ r : ℝ, 0 ≤ r → r ≠ (n : ℝ) / T →
        poisson_like_at n T r < poisson_like_at n T ((n : ℝ) / T) := by
  refine ⟨poisson_like_strictMonoOn n T hn hT, poisson_like_strictAntiOn n T hn hT, ?_⟩
  intro r hr hne
  rcases lt_or_gt_of_ne hne with hlt | hgt
  · exact poisson_like_strictMonoOn n T hn hT ⟨hr, le_of_lt hlt⟩
      ⟨by positivity, le_refl _⟩ hlt
  · exact poisson_like_strictAntiOn n T hn hT Set.left_mem_Ici
      (Set.mem_Ici.mpr (le_of_lt hgt)) hgt

/-- Witness for C6 at `n = 1`, `T = 1`. -/
theorem C6_witness :
    ((0 : ℕ) < 1 ∧ (0 : ℝ) < 1) ∧
      (StrictMonoOn (poisson_like_at 1 1) (Set.Icc 0 (((1 : ℕ) : ℝ) / 1)) ∧
        StrictAntiOn (poisson_like_at 1 1) (Set.Ici (((1 : ℕ) : ℝ) / 1)) ∧
        ∀ r : ℝ, 0 ≤ r → r ≠ ((1 : ℕ) : ℝ) / 1 →
          poisson_like_at 1 1 r < poisson_like_at 1 1 (((1 : ℕ) : ℝ) / 1)) :=
  ⟨⟨by norm_num, by norm_num⟩,
    C6_poisson_likelihood_unimodal 1 1 (by norm_num) (by norm_num)⟩

/-! ### Claim C7 helper development -/

theorem trapz_eq_sum (l : List ℝ) (dx : ℝ) :
    trapz l dx = ∑ i in Finset.range (l.length - 1), dx * (l.getD i 0 + l.getD (i + 1) 0) / 2 := by
  induction l with
  | nil => simp [trapz]
  | cons x rest ih =>
    cases rest with
    | nil => simp [trapz]
    | cons y rest2 =>
      rw [trapz_cons_cons, ih]
      have hlen : (x :: y :: rest2).length - 1 = ((y :: rest2).length - 1) + 1 := by
        simp
      rw [hlen, Finset.sum_range_succ']
      simp only [List.getD_cons_succ, List.getD_cons_zero]
      ring

theorem getD_map_range (f : ℕ → ℝ) (n i : ℕ) (hi : i < n) :
    ((List.range n).map f).getD i 0 = f i := by
  rw [List.getD_eq_getElem?_getD, List.getElem?_map, List.getElem?_range hi]
  rfl

theorem trapz_map_range (f : ℕ → ℝ) (n : ℕ) (dx : ℝ) :
    trapz ((List.range n).map f) dx
      = ∑ i in Finset.range (n - 1), dx * (f i + f (i + 1)) / 2 := by
  rw [trapz_eq_sum]
  simp only [List.length_map, List.length_range]
  refine Finset.sum_congr rfl fun i hi => ?_
  rw [Finset.mem_range] at hi
  have h1 : i < n := lt_of_lt_of_le hi (Nat.sub_le n 1)
  have h2 : i + 1 < n := by omega
  rw [getD_map_range f n i h1, getD_map_range f n (i + 1) h2]

theorem zipWith_map_same {α β γ δ : Type*} (g : β → γ → δ) (f₁ : α → β) (f₂ : α → γ)
    (l : List α) :
    List.zipWith g (l.map f₁) (l.map f₂) = l.map (fun x => g (f₁ x) (f₂ x)) := by
  induction l with
  | nil => rfl
  | cons x xs ih => simp [ih]

theorem pointwise_eq (n k : ℕ) (j : ℕ) :
    1 / 100000 * poisson_like_at n (2 * (k : ℝ)) ((20 : ℝ) / 199 * (j : ℝ))
      = (1 / 100000 * ((40 * (k : ℝ)) / 199) ^ n) * ((j : ℝ) ^ n * (tq ^ k) ^ j) := by
  unfold poisson_like_at tq
  have hbase : ((20 : ℝ) / 199 * (j : ℝ) * (2 * (k : ℝ))) ^ n
      = ((40 * (k : ℝ)) / 199) ^ n * (j : ℝ) ^ n := by
    rw [← mul_pow]
    congr 1
    ring
  have hexp : Real.exp (-((20 : ℝ) / 199 * (j : ℝ) * (2 * (k : ℝ))))
      = (Real.exp (-(40 / 199)) ^ k) ^ j := by
    rw [← pow_mul, ← Real.exp_nat_mul]
    congr 1
    push_cast
    ring
  rw [hbase, hexp]
  ring

theorem momB_nonneg (p : ℕ) (w : ℝ) (hw : 0 ≤ w) : 0 ≤ momB p w := by
  refine Finset.sum_nonneg fun i _ => ?_
  have h1 : (0 : ℝ) ≤ (i : ℝ) ^ p * w ^ i := by positivity
  have h2 : (0 : ℝ) ≤ ((i : ℝ) + 1) ^ p * w ^ (i + 1) := by positivity
  linarith

theorem momB_pos (p : ℕ) (w : ℝ) (hw : 0 < w) : 0 < momB p w := by
  refine Finset.sum_pos' (fun i _ => ?_) ⟨0, Finset.mem_range.mpr (by norm_num), ?_⟩
  · have h1 : (0 : ℝ) ≤ (i : ℝ) ^ p * w ^ i := by positivity
    have h2 : (0 : ℝ) ≤ ((i : ℝ) + 1) ^ p * w ^ (i + 1) := by positivity
    linarith
  · have h1 : (0 : ℝ) ≤ ((0 : ℕ) : ℝ) ^ p * w ^ (0 : ℕ) := by positivity
    have h2 : (0 : ℝ) < (((0 : ℕ) : ℝ) + 1) ^ p * w ^ ((0 : ℕ) + 1) := by
      have h01 : ((0 : ℕ) : ℝ) + 1 = 1 := by norm_num
      rw [h01, one_pow, one_mul]
      positivity
    exact div_pos (add_pos_of_nonneg_of_pos h1 h2) two_pos

theorem momB_mono (p : ℕ) (u v : ℝ) (hu : 0 ≤ u) (huv : u ≤ v) :
    momB p u ≤ momB p v := by
  refine Finset.sum_le_sum fun i _ => ?_
  have h1 : u ^ i ≤ v ^ i := pow_le_pow_left hu huv i
  have h2 : u ^ (i + 1) ≤ v ^ (i + 1) := pow_le_pow_left hu huv (i + 1)
  have h3 : (0 : ℝ) ≤ (i : ℝ) ^ p := by positivity
  have h4 : (0 : ℝ) ≤ ((i : ℝ) + 1) ^ p := by positivity
  have := mul_le_mul_of_nonneg_left h1 h3
  have := mul_le_mul_of_nonneg_left h2 h4
  linarith

theorem rvals_eq : rvals = (List.range 200).map (fun i : ℕ => (20 : ℝ) / 199 * (i : ℝ)) := by
  unfold rvals linspace
  refine List.map_congr_left fun i _ => ?_
  push_cast
  ring

theorem dr_eq : dr = 20 / 199 := by
  unfold dr
  rw [rvals_eq, getD_map_range _ 200 1 (by norm_num), getD_map_range _ 200 0 (by norm_num)]
  norm_num

theorem prior_vals_eq :
    prior_vals = (List.range 200).map (fun _ : ℕ => (1 : ℝ) / 100000) := by
  unfold prior_vals flat_prior
  rw [rvals_eq, List.map_map]
  refine List.map_congr_left fun i _ => ?_
  norm_num

theorem numer_eq (n : ℕ) (T : ℝ) :
    List.zipWith (· * ·) prior_vals (poisson_like n T rvals)
      = (List.range 200).map
          (fun i : ℕ => 1 / 100000 * poisson_like_at n T ((20 : ℝ) / 199 * (i : ℝ))) := by
  rw [prior_vals_eq, poisson_like, rvals_eq, List.map_map, zipWith_map_same]
  rfl

theorem trapzA (n k : ℕ) :
    trapz ((List.range 200).map
        (fun i : ℕ => 1 / 100000 * poisson_like_at n (2 * (k : ℝ)) ((20 : ℝ) / 199 * (i : ℝ))))
      (20 / 199)
    = 20 / 199 * (1 / 100000 * ((40 * (k : ℝ)) / 199) ^ n) * momB n (tq ^ k) := by
  rw [trapz_map_range, show (200 : ℕ) - 1 = 199 from by norm_num]
  unfold momB
  rw [Finset.mul_sum]
  refine Finset.sum_congr rfl fun i _ => ?_
  dsimp only
  rw [pointwise_eq n k i, pointwise_eq n k (i + 1)]
  push_cast
  ring

theorem post_case_eq (n k : ℕ) :
    post_case n (2 * (k : ℝ)) = (List.range 200).map
      (fun i : ℕ => (1 / 100000 * poisson_like_at n (2 * (k : ℝ)) ((20 : ℝ) / 199 * (i : ℝ))) /
        (20 / 199 * (1 / 100000 * ((40 * (k : ℝ)) / 199) ^ n) * momB n (tq ^ k))) := by
  unfold post_case post_pdf
  rw [numer_eq, dr_eq, trapzA, List.map_map]
  rfl

theorem sum_factor (C : ℝ) (p : ℕ) (w : ℝ) (g : ℕ → ℝ)
    (hg : ∀ j : ℕ, g j = C * ((j : ℝ) ^ p * w ^ j)) :
    ∑ i in Finset.range 199, (20 : ℝ) / 199 * (g i + g (i + 1)) / 2
      = (20 : ℝ) / 199 * C * momB p w := by
  unfold momB
  rw [Finset.mul_sum]
  refine Finset.sum_congr rfl fun i _ => ?_
  rw [hg i, hg (i + 1)]
  push_cast
  ring

theorem var_case (n k : ℕ) (hk : k ≠ 0) :
    grid_var rvals (post_case n (2 * (k : ℝ))) dr
      = (20 / 199) ^ 2 * (momB (n + 2) (tq ^ k) / momB n (tq ^ k)
          - (momB (n + 1) (tq ^ k) / momB n (tq ^ k)) ^ 2) := by
  have hkR : (0 : ℝ) < (k : ℝ) := by
    exact_mod_cast Nat.pos_of_ne_zero hk
  have hKpos : (0 : ℝ) < 1 / 100000 * ((40 * (k : ℝ)) / 199) ^ n := by positivity
  have hw : (0 : ℝ) < tq ^ k := pow_pos (Real.exp_pos _) k
  have hM0 : 0 < momB n (tq ^ k) := momB_pos _ _ hw
  unfold grid_var grid_mean
  rw [post_case_eq n k, rvals_eq, dr_eq, zipWith_map_same, zipWith_map_same,
    trapz_map_range, trapz_map_range]
  have hsum1 : (∑ i in Finset.range (200 - 1), (20 : ℝ) / 199 *
        ((fun x : ℕ => ((20 : ℝ) / 199 * (x : ℝ)) ^ 2 *
          ((1 / 100000 * poisson_like_at n (2 * (k : ℝ)) ((20 : ℝ) / 199 * (x : ℝ))) /
            (20 / 199 * (1 / 100000 * ((40 * (k : ℝ)) / 199) ^ n) * momB n (tq ^ k)))) i +
         (fun x : ℕ => ((20 : ℝ) / 199 * (x : ℝ)) ^ 2 *
          ((1 / 100000 * poisson_like_at n (2 * (k : ℝ)) ((20 : ℝ) / 199 * (x : ℝ))) /
            (20 / 199 * (1 / 100000 * ((40 * (k : ℝ)) / 199) ^ n) * momB n (tq ^ k)))) (i + 1)) / 2)
      = (20 : ℝ) / 199 * ((1 / 100000 * ((40 * (k : ℝ)) / 199) ^ n) * (20 / 199) ^ 2 /
          (20 / 199 * (1 / 100000 * ((40 * (k : ℝ)) / 199) ^ n) * momB n (tq ^ k)))
        * momB (n + 2) (tq ^ k) := by
    refine sum_factor _ (n + 2) (tq ^ k) _ fun j => ?_
    dsimp only
    rw [pointwise_eq n k j, pow_add]
    ring
  have hsum2 : (∑ i in Finset.range (200 - 1), (20 : ℝ) / 199 *
        ((fun x : ℕ => ((20 : ℝ) / 199 * (x : ℝ)) *
          ((1 / 100000 * poisson_like_at n (2 * (k : ℝ)) ((20 : ℝ) / 199 * (x : ℝ))) /
            (20 / 199 * (1 / 100000 * ((40 * (k : ℝ)) / 199) ^ n) * momB n (tq ^ k)))) i +
         (fun x : ℕ => ((20 : ℝ) / 199 * (x : ℝ)) *
          ((1 / 100000 * poisson_like_at n (2 * (k : ℝ)) ((20 : ℝ) / 199 * (x : ℝ))) /
            (20 / 199 * (1 / 100000 * ((40 * (k : ℝ)) / 199) ^ n) * momB n (tq ^ k)))) (i + 1)) / 2)
      = (20 : ℝ) / 199 * ((1 / 100000 * ((40 * (k : ℝ)) / 199) ^ n) * (20 / 199) /
          (20 / 199 * (1 / 100000 * ((40 * (k : ℝ)) / 199) ^ n) * momB n (tq ^ k)))
        * momB (n + 1) (tq ^ k) := by
    refine sum_factor _ (n + 1) (tq ^ k) _ fun j => ?_
    dsimp only
    rw [pointwise_eq n k j, pow_succ]
    ring
  rw [hsum1, hsum2]
  field_simp
  ring

theorem momB_cast (p : ℕ) (u : ℚ) : ((momBQ p u : ℚ) : ℝ) = momB p (u : ℝ) := by
  unfold momBQ momB
  push_cast
  rfl

theorem tq_bounds : ((qaQ : ℚ) : ℝ) ≤ tq ∧ tq ≤ ((qbQ : ℚ) : ℝ) := by
  have habs : |(-(40 / 199) : ℝ)| = 40 / 199 := by
    rw [abs_neg, abs_of_pos]
    norm_num
  have h := @Real.exp_bound (-(40 / 199)) (by rw [habs]; norm_num) 8 (by norm_num)
  rw [habs, abs_le] at h
  obtain ⟨hlo, hhi⟩ := h
  have hsum : ∑ m in Finset.range 8, (-(40 / 199) : ℝ) ^ m / m.factorial
      = 212273341458195739 / 259531949862389379 := by
    simp [Finset.sum_range_succ, Nat.factorial]
    norm_num
  rw [hsum] at hlo hhi
  have hqa : ((qaQ : ℚ) : ℝ) = 81790832131247 / 100000000000000 := by
    norm_num [qaQ]
  have hqb : ((qbQ : ℚ) : ℝ) = 81790832146118 / 100000000000000 := by
    norm_num [qbQ]
  norm_num [Nat.factorial] at hlo hhi
  constructor
  · rw [hqa]
    unfold tq
    linarith
  · rw [hqb]
    unfold tq
    linarith

set_option maxRecDepth 40000 in
theorem master_bound :
    momBQ 82 (qbQ ^ 5) / momBQ 80 (qaQ ^ 5) - (momBQ 81 (qaQ ^ 5) / momBQ 80 (qbQ ^ 5)) ^ 2
      < momBQ 18 qaQ / momBQ 16 qbQ - (momBQ 17 qbQ / momBQ 16 qaQ) ^ 2 := by
  decide

/-- Claim C7: with the bounded flat prior over `[0, 1e5]` and the 200-point
rate grid over `[0, 20]`, the normalized grid posterior for the data
`(n, T) = (80, 10)` has strictly smaller variance than the posterior for
`(n, T) = (16, 2)`, although both datasets share the maximum-likelihood
rate 8.  The proof rewrites both grid variances in closed form as
trapezoid-weighted power sums in `t = exp(-40/199)` and compares them
through certified rational bounds on `t`. -/
theorem C7_second_posterior_narrower :
    grid_var rvals (post_case 80 10) dr < grid_var rvals (post_case 16 2) dr := by
  have e2 : (2 : ℝ) = 2 * ((1 : ℕ) : ℝ) := by norm_num
  have e10 : (10 : ℝ) = 2 * ((5 : ℕ) : ℝ) := by norm_num
  rw [e2, e10, var_case 16 1 (by norm_num), var_case 80 5 (by norm_num)]
  simp only [pow_one]
  -- numeric facts about the rational endpoints
  have hqa0 : (0 : ℝ) < ((qaQ : ℚ) : ℝ) := by norm_num [qaQ]
  have hqb0 : (0 : ℝ) < ((qbQ : ℚ) : ℝ) := by norm_num [qbQ]
  have htq0 : (0 : ℝ) < tq := Real.exp_pos _
  have hlo := tq_bounds.1
  have hhi := tq_bounds.2
  have hqa5 : (((qaQ ^ 5 : ℚ)) : ℝ) = ((qaQ : ℚ) : ℝ) ^ 5 := by push_cast; ring
  have hqb5 : (((qbQ ^ 5 : ℚ)) : ℝ) = ((qbQ : ℚ) : ℝ) ^ 5 := by push_cast; ring
  have h5lo : (((qaQ ^ 5 : ℚ)) : ℝ) ≤ tq ^ 5 := by
    rw [hqa5]; exact pow_le_pow_left (le_of_lt hqa0) hlo 5
  have h5hi : tq ^ 5 ≤ (((qbQ ^ 5 : ℚ)) : ℝ) := by
    rw [hqb5]; exact pow_le_pow_left (le_of_lt htq0) hhi 5
  have hqa50 : (0 : ℝ) < (((qaQ ^ 5 : ℚ)) : ℝ) := by rw [hqa5]; positivity
  have htq50 : (0 : ℝ) < tq ^ 5 := by positivity
  -- real-valued moment bounds, case (16, 2), w = tq
  have a2lo : ((momBQ 18 qaQ : ℚ) : ℝ) ≤ momB 18 tq := by
    rw [momB_cast]; exact momB_mono _ _ _ (le_of_lt hqa0) hlo
  have a0hi : momB 16 tq ≤ ((momBQ 16 qbQ : ℚ) : ℝ) := by
    rw [momB_cast]; exact momB_mono _ _ _ (le_of_lt htq0) hhi
  have a0lo : ((momBQ 16 qaQ : ℚ) : ℝ) ≤ momB 16 tq := by
    rw [momB_cast]; exact momB_mono _ _ _ (le_of_lt hqa0) hlo
  have a1hi : momB 17 tq ≤ ((momBQ 17 qbQ : ℚ) : ℝ) := by
    rw [momB_cast]; exact momB_mono _ _ _ (le_of_lt htq0) hhi
  have hM16 : (0 : ℝ) < momB 16 tq := momB_pos _ _ htq0
  have hM16a : (0 : ℝ) < ((momBQ 16 qaQ : ℚ) : ℝ) := by
    rw [momB_cast]; exact momB_pos _ _ hqa0
  -- real-valued moment bounds, case (80, 10), w = tq ^ 5
  have u2hi : momB 82 (tq ^ 5) ≤ ((momBQ 82 (qbQ ^ 5) : ℚ) : ℝ) := by
    rw [momB_cast]; exact momB_mono _ _ _ (le_of_lt htq50) h5hi
  have u0lo : ((momBQ 80 (qaQ ^ 5) : ℚ) : ℝ) ≤ momB 80 (tq ^ 5) := by
    rw [momB_cast]; exact momB_mono _ _ _ (le_of_lt hqa50) h5lo
  have u0hi : momB 80 (tq ^ 5) ≤ ((momBQ 80 (qbQ ^ 5) : ℚ) : ℝ) := by
    rw [momB_cast]; exact momB_mono _ _ _ (le_of_lt htq50) h5hi
  have u1lo : ((momBQ 81 (qaQ ^ 5) : ℚ) : ℝ) ≤ momB 81 (tq ^ 5) := by
    rw [momB_cast]; exact momB_mono _ _ _ (le_of_lt hqa50) h5lo
  have hU80 : (0 : ℝ) < momB 80 (tq ^ 5) := momB_pos _ _ htq50
  have hU80a : (0 : ℝ) < ((momBQ 80 (qaQ ^ 5) : ℚ) : ℝ) := by
    rw [momB_cast]; exact momB_pos _ _ (by rw [hqa5]; positivity)
  have hU80b : (0 : ℝ) < ((momBQ 80 (qbQ ^ 5) : ℚ) : ℝ) := by
    rw [momB_cast]; exact momB_pos _ _ (by rw [hqb5]; positivity)
  -- lower bound for the variance of the (16, 2) posterior
  have hA : ((momBQ 18 qaQ : ℚ) : ℝ) / ((momBQ 16 qbQ : ℚ) : ℝ)
      ≤ momB 18 tq / momB 16 tq :=
    div_le_div (le_trans (le_of_lt (lt_of_lt_of_le (by
      rw [momB_cast]; exact momB_pos 18 _ hqa0) a2lo)) (le_refl _)) a2lo hM16 a0hi
  have hB : momB 17 tq / momB 16 tq
      ≤ ((momBQ 17 qbQ : ℚ) : ℝ) / ((momBQ 16 qaQ : ℚ) : ℝ) :=
    div_le_div (le_trans (le_of_lt (lt_of_lt_of_le (momB_pos 17 _ htq0) a1hi))
      (le_refl _)) a1hi hM16a a0lo
  have hB2 : (momB 17 tq / momB 16 tq) ^ 2
      ≤ (((momBQ 17 qbQ : ℚ) : ℝ) / ((momBQ 16 qaQ : ℚ) : ℝ)) ^ 2 :=
    pow_le_pow_left (div_nonneg (le_of_lt (momB_pos 17 _ htq0)) (le_of_lt hM16)) hB 2
  have hL : ((momBQ 18 qaQ : ℚ) : ℝ) / ((momBQ 16 qbQ : ℚ) : ℝ)
        - (((momBQ 17 qbQ : ℚ) : ℝ) / ((momBQ 16 qaQ : ℚ) : ℝ)) ^ 2
      ≤ momB 18 tq / momB 16 tq - (momB 17 tq / momB 16 tq) ^ 2 :=
    sub_le_sub hA hB2
  -- upper bound for the variance of the (80, 10) posterior
  have hC : momB 82 (tq ^ 5) / momB 80 (tq ^ 5)
      ≤ ((momBQ 82 (qbQ ^ 5) : ℚ) : ℝ) / ((momBQ 80 (qaQ ^ 5) : ℚ) : ℝ) :=
    div_le_div (le_trans (le_of_lt (lt_of_lt_of_le (momB_pos 82 _ htq50) u2hi))
      (le_refl _)) u2hi hU80a u0lo
  have hD : ((momBQ 81 (qaQ ^ 5) : ℚ) : ℝ) / ((momBQ 80 (qbQ ^ 5) : ℚ) : ℝ)
      ≤ momB 81 (tq ^ 5) / momB 80 (tq ^ 5) :=
    div_le_div (le_trans (le_of_lt (lt_of_lt_of_le (by
      rw [momB_cast]; exact momB_pos 81 _ (by rw [hqa5]; positivity)) u1lo))
      (le_refl _)) u1lo hU80 u0hi
  have hD2 : (((momBQ 81 (qaQ ^ 5) : ℚ) : ℝ) / ((momBQ 80 (qbQ ^ 5) : ℚ) : ℝ)) ^ 2
      ≤ (momB 81 (tq ^ 5) / momB 80 (tq ^ 5)) ^ 2 :=
    pow_le_pow_left (div_nonneg (le_of_lt (by
      rw [momB_cast]; exact momB_pos 81 _ (by rw [hqa5]; positivity))) (le_of_lt hU80b)) hD 2
  have hR : momB 82 (tq ^ 5) / momB 80 (tq ^ 5) - (momB 81 (tq ^ 5) / momB 80 (tq ^ 5)) ^ 2
      ≤ ((momBQ 82 (qbQ ^ 5) : ℚ) : ℝ) / ((momBQ 80 (qaQ ^ 5) : ℚ) : ℝ)
        - (((momBQ 81 (qaQ ^ 5) : ℚ) : ℝ) / ((momBQ 80 (qbQ ^ 5) : ℚ) : ℝ)) ^ 2 :=
    sub_le_sub hC hD2
  -- the certified rational gap
  have hmid : ((momBQ 82 (qbQ ^ 5) : ℚ) : ℝ) / ((momBQ 80 (qaQ ^ 5) : ℚ) : ℝ)
        - (((momBQ 81 (qaQ ^ 5) : ℚ) : ℝ) / ((momBQ 80 (qbQ ^ 5) : ℚ) : ℝ)) ^ 2
      < ((momBQ 18 qaQ : ℚ) : ℝ) / ((momBQ 16 qbQ : ℚ) : ℝ)
        - (((momBQ 17 qbQ : ℚ) : ℝ) / ((momBQ 16 qaQ : ℚ) : ℝ)) ^ 2 := by
    have h := master_bound
    push_cast at h ⊢
    exact_mod_cast h
  have hfac : (0 : ℝ) < (20 / 199 : ℝ) ^ 2 := by norm_num
  calc (20 / 199 : ℝ) ^ 2 * (momB (80 + 2) (tq ^ 5) / momB 80 (tq ^ 5)
        - (momB (80 + 1) (tq ^ 5) / momB 80 (tq ^ 5)) ^ 2)
      ≤ (20 / 199 : ℝ) ^ 2 * (((momBQ 82 (qbQ ^ 5) : ℚ) : ℝ) / ((momBQ 80 (qaQ ^ 5) : ℚ) : ℝ)
        - (((momBQ 81 (qaQ ^ 5) : ℚ) : ℝ) / ((momBQ 80 (qbQ ^ 5) : ℚ) : ℝ)) ^ 2) := by
        have h82 : (80 + 2 : ℕ) = 82 := rfl
        have h81 : (80 + 1 : ℕ) = 81 := rfl
        rw [h82, h81]
        exact mul_le_mul_of_nonneg_left hR (le_of_lt hfac)
    _ < (20 / 199 : ℝ) ^ 2 * (((momBQ 18 qaQ : ℚ) : ℝ) / ((momBQ 16 qbQ : ℚ) : ℝ)
        - (((momBQ 17 qbQ : ℚ) : ℝ) / ((momBQ 16 qaQ : ℚ) : ℝ)) ^ 2) :=
        mul_lt_mul_of_pos_left hmid hfac
    _ ≤ (20 / 199 : ℝ) ^ 2 * (momB (16 + 2) tq / momB 16 tq
        - (momB (16 + 1) tq / momB 16 tq) ^ 2) := by
        have h18 : (16 + 2 : ℕ) = 18 := rfl
        have h17 : (16 + 1 : ℕ) = 17 := rfl
        rw [h18, h17]
        exact mul_le_mul_of_nonneg_left hL (le_of_lt hfac)


/-! ### Claim C8 -/

/-- Claim C8: the normalizer and the likelihood evaluators are
deterministic pure functions of their explicit arguments; two runs on
equal inputs produce identical outputs. -/
theorem C8_deterministic (p1 p2 l1 l2 : List ℝ) (d1 d2 : ℝ)
    (data1 data2 : List ℝ) (m1 m2 : NpVal) (s1 s2 : ℝ) (n1 n2 : ℕ)
    (hp : p1 = p2) (hl : l1 = l2) (hd : d1 = d2) (hdata : data1 = data2)
    (hm : m1 = m2) (hs : s1 = s2) (hn : n1 = n2) :
    post_pdf p1 l1 d1 = post_pdf p2 l2 d2 ∧
      norm_like data1 m1 s1 = norm_like data2 m2 s2 ∧
      cauchy_like data1 m1 s1 = cauchy_like data2 m2 s2 ∧
      poisson_like n1 s1 p1 = poisson_like n2 s2 p2 := by
  subst hp; subst hl; subst hd; subst hdata; subst hm; subst hs; subst hn
  exact ⟨rfl, rfl, rfl, rfl⟩

/-- Witness for C8 at concrete equal inputs. -/
theorem C8_witness :
    post_pdf [(1 : ℝ)] [(1 : ℝ)] 1 = post_pdf [(1 : ℝ)] [(1 : ℝ)] 1 ∧
      norm_like [(1 : ℝ)] (NpVal.scalar 0) 1 = norm_like [(1 : ℝ)] (NpVal.scalar 0) 1 ∧
      cauchy_like [(1 : ℝ)] (NpVal.scalar 0) 1 = cauchy_like [(1 : ℝ)] (NpVal.scalar 0) 1 ∧
      poisson_like 1 1 [(1 : ℝ)] = poisson_like 1 1 [(1 : ℝ)] :=
  C8_deterministic _ _ _ _ _ _ _ _ _ _ _ _ _ _ rfl rfl rfl rfl rfl rfl rfl

/-! ### Pointwise positivity helpers -/

theorem zipWith_mul_nonneg (a b : List ℝ) (ha : ∀ x ∈ a, 0 ≤ x) (hb : ∀ x ∈ b, 0 ≤ x) :
    ∀ x ∈ List.zipWith (· * ·) a b, 0 ≤ x := by
  induction a generalizing b with
  | nil => simp
  | cons x xs ih =>
    cases b with
    | nil => simp
    | cons y ys =>
      intro z hz
      simp only [List.zipWith_cons_cons, List.mem_cons] at hz
      rcases hz with rfl | hz
      · exact mul_nonneg (ha x (by simp)) (hb y (by simp))
      · exact ih ys (fun u hu => ha u (by simp [hu])) (fun u hu => hb u (by simp [hu])) z hz

theorem zipWith_mul_pos (a b : List ℝ) (ha : ∀ x ∈ a, 0 < x) (hb : ∀ x ∈ b, 0 < x) :
    ∀ x ∈ List.zipWith (· * ·) a b, 0 < x := by
  induction a generalizing b with
  | nil => simp
  | cons x xs ih =>
    cases b with
    | nil => simp
    | cons y ys =>
      intro z hz
      simp only [List.zipWith_cons_cons, List.mem_cons] at hz
      rcases hz with rfl | hz
      · exact mul_pos (ha x (by simp)) (hb y (by simp))
      · exact ih ys (fun u hu => ha u (by simp [hu])) (fun u hu => hb u (by simp [hu])) z hz

theorem trapz_nonneg (l : List ℝ) (dx : ℝ) (hl : ∀ x ∈ l, 0 ≤ x) (hdx : 0 ≤ dx) :
    0 ≤ trapz l dx := by
  induction l with
  | nil => simp [trapz]
  | cons x rest ih =>
    cases rest with
    | nil => simp [trapz]
    | cons y rest2 =>
      rw [trapz_cons_cons]
      have h1 : 0 ≤ dx * (x + y) / 2 := by
        have hx := hl x (by simp)
        have hy := hl y (by simp)
        positivity
      have h2 : 0 ≤ trapz (y :: rest2) dx :=
        ih (fun u hu => hl u (by simp [List.mem_cons] at hu ⊢; tauto))
      linarith

theorem trapz_pos (l : List ℝ) (dx : ℝ) (h2 : 2 ≤ l.length) (hl : ∀ x ∈ l, 0 < x)
    (hdx : 0 < dx) : 0 < trapz l dx := by
  match l, h2 with
  | x :: y :: rest, _ =>
    rw [trapz_cons_cons]
    have hx := hl x (by simp)
    have hy := hl y (by simp)
    have hhead : 0 < dx * (x + y) / 2 := by positivity
    have htail : 0 ≤ trapz (y :: rest) dx := by
      refine trapz_nonneg _ _ (fun u hu => le_of_lt (hl u ?_)) (le_of_lt hdx)
      simp [List.mem_cons] at hu ⊢
      tauto
    linarith

theorem list_prod_le_one (l : List ℝ) (h0 : ∀ x ∈ l, 0 ≤ x) (h1 : ∀ x ∈ l, x ≤ 1) :
    l.prod ≤ 1 := by
  induction l with
  | nil => simp
  | cons x rest ih =>
    rw [List.prod_cons]
    have hx0 := h0 x (by simp)
    have hx1 := h1 x (by simp)
    have hrest0 : 0 ≤ rest.prod :=
      List.prod_nonneg (fun u hu => h0 u (by simp [hu]))
    have hrest1 : rest.prod ≤ 1 :=
      ih (fun u hu => h0 u (by simp [hu])) (fun u hu => h1 u (by simp [hu]))
    exact mul_le_one₀ hx1 hrest0 hrest1

/-! ### Claim C9 -/

/-- Claim C9: every density vector the engine produces -- the flat prior,
the exponential (gamma shape-one) prior, the Poisson, Normal, and Cauchy
likelihood vectors, and the normalized posterior -- has exactly as many
elements as its grid, aligned index for index, and all elements are
nonnegative, whenever the grid lies in the support of the family and the
normalizing constant is positive. -/
theorem C9_density_vectors_aligned_nonneg (grid : List ℝ) (lo hi scale T sig gam : ℝ)
    (n : ℕ) (data prior likev : List ℝ) (dx : ℝ)
    (hlohi : lo < hi) (hscale : 0 < scale) (hT : 0 ≤ T)
    (hgrid : ∀ r ∈ grid, 0 ≤ r) (hgam : gam ≠ 0)
    (hprior : ∀ x ∈ prior, 0 ≤ x) (hlikev : ∀ x ∈ likev, 0 ≤ x)
    (hlen : prior.length = likev.length) (hdx : 0 ≤ dx) :
    ((flat_prior grid lo hi).length = grid.length ∧ ∀ x ∈ flat_prior grid lo hi, 0 ≤ x) ∧
      ((exp_prior grid scale).length = grid.length ∧ ∀ x ∈ exp_prior grid scale, 0 ≤ x) ∧
      ((poisson_like n T grid).length = grid.length ∧ ∀ x ∈ poisson_like n T grid, 0 ≤ x) ∧
      (∀ ms : List ℝ, (norm_like_vec data ms sig).length = ms.length ∧
        ∀ x ∈ norm_like_vec data ms sig, 0 ≤ x) ∧
      (∀ xs : List ℝ, (cauchy_like_vec data xs gam).length = xs.length ∧
        ∀ x ∈ cauchy_like_vec data xs gam, 0 ≤ x) ∧
      ((post_pdf prior likev dx).length = prior.length ∧
        ∀ x ∈ post_pdf prior likev dx, 0 ≤ x) := by
  refine ⟨⟨by simp [flat_prior], ?_⟩, ⟨by simp [exp_prior], ?_⟩,
    ⟨by simp [poisson_like], ?_⟩, fun ms => ⟨by simp [norm_like_vec], ?_⟩,
    fun xs => ⟨by simp [cauchy_like_vec], ?_⟩, ⟨?_, ?_⟩⟩
  · intro x hx
    simp only [flat_prior, List.mem_map] at hx
    obtain ⟨r, _, rfl⟩ := hx
    have : (0 : ℝ) < hi - lo := by linarith
    positivity
  · intro x hx
    simp only [exp_prior, List.mem_map] at hx
    obtain ⟨r, _, rfl⟩ := hx
    unfold gamma1_pdf
    split
    · exact le_refl 0
    · positivity
  · intro x hx
    simp only [poisson_like, List.mem_map] at hx
    obtain ⟨r, hr, rfl⟩ := hx
    unfold poisson_like_at
    have hrT : 0 ≤ r * T := mul_nonneg (hgrid r hr) hT
    positivity
  · intro x hx
    simp only [norm_like_vec, List.mem_map] at hx
    obtain ⟨mu, _, rfl⟩ := hx
    exact le_of_lt (Real.exp_pos _)
  · intro x hx
    simp only [cauchy_like_vec, List.mem_map] at hx
    obtain ⟨x0, _, rfl⟩ := hx
    unfold cauchy_like_at
    refine List.prod_nonneg fun u hu => ?_
    simp only [List.mem_map] at hu
    obtain ⟨d, _, rfl⟩ := hu
    have hg2 : (0 : ℝ) < gam ^ 2 := by positivity
    have hd2 : (0 : ℝ) ≤ (x0 - d) ^ 2 / gam ^ 2 := by positivity
    positivity
  · simp [post_pdf, hlen]
  · intro x hx
    simp only [post_pdf, List.mem_map] at hx
    obtain ⟨u, hu, rfl⟩ := hx
    have hunn : 0 ≤ u := zipWith_mul_nonneg prior likev hprior hlikev u hu
    have hZ : 0 ≤ trapz (List.zipWith (· * ·) prior likev) dx :=
      trapz_nonneg _ _ (zipWith_mul_nonneg prior likev hprior hlikev) hdx
    positivity

/-- Witness for C9 at concrete inputs. -/
theorem C9_witness :
    ((0 : ℝ) < 1 ∧ (0 : ℝ) < 1 ∧ (0 : ℝ) ≤ 1 ∧ (1 : ℝ) ≠ 0 ∧ (0 : ℝ) ≤ 1) ∧
      ((flat_prior [(0 : ℝ), 1] 0 1).length = [(0 : ℝ), 1].length ∧
          ∀ x ∈ flat_prior [(0 : ℝ), 1] 0 1, 0 ≤ x) ∧
        ((exp_prior [(0 : ℝ), 1] 1).length = [(0 : ℝ), 1].length ∧
          ∀ x ∈ exp_prior [(0 : ℝ), 1] 1, 0 ≤ x) ∧
        ((poisson_like 1 1 [(0 : ℝ), 1]).length = [(0 : ℝ), 1].length ∧
          ∀ x ∈ poisson_like 1 1 [(0 : ℝ), 1], 0 ≤ x) ∧
        (∀ ms : List ℝ, (norm_like_vec [(0 : ℝ)] ms 1).length = ms.length ∧
          ∀ x ∈ norm_like_vec [(0 : ℝ)] ms 1, 0 ≤ x) ∧
        (∀ xs : List ℝ, (cauchy_like_vec [(0 : ℝ)] xs 1).length = xs.length ∧
          ∀ x ∈ cauchy_like_vec [(0 : ℝ)] xs 1, 0 ≤ x) ∧
        ((post_pdf [(1 : ℝ), 1] [(1 : ℝ), 1] 1).length = [(1 : ℝ), 1].length ∧
          ∀ x ∈ post_pdf [(1 : ℝ), 1] [(1 : ℝ), 1] 1, 0 ≤ x) := by
  refine ⟨⟨by norm_num, by norm_num, by norm_num, by norm_num, by norm_num⟩, ?_⟩
  exact C9_density_vectors_aligned_nonneg [(0 : ℝ), 1] 0 1 1 1 1 1 1 [(0 : ℝ)]
    [(1 : ℝ), 1] [(1 : ℝ), 1] 1 (by norm_num) (by norm_num) (by norm_num)
    (by intro r hr; simp at hr; rcases hr with rfl | rfl <;> norm_num) (by norm_num)
    (by intro x hx; simp at hx; rcases hx with rfl | rfl <;> norm_num)
    (by intro x hx; simp at hx; rcases hx with rfl | rfl <;> norm_num) rfl (by norm_num)

/-! ### Claim C10 -/

/-- Claim C10: for a nonempty dataset and nonzero scale, every value of the
Cauchy likelihood lies in the half-open interval `(0, 1]`; consequently,
with a strictly positive prior on a grid of at least two points and
positive spacing, the trapezoidal normalizing constant of the Cauchy
posterior is strictly positive, so the normalizer never divides by zero. -/
theorem C10_cauchy_like_in_unit_interval (data : List ℝ) (gam x0 : ℝ)
    (xs prior : List ℝ) (dx : ℝ) (hdata : data ≠ []) (hgam : gam ≠ 0) :
    (0 < cauchy_like_at data gam x0 ∧ cauchy_like_at data gam x0 ≤ 1) ∧
      (∀ y ∈ cauchy_like_vec data xs gam, 0 < y ∧ y ≤ 1) ∧
      ((∀ p ∈ prior, 0 < p) → prior.length = xs.length → 2 ≤ xs.length → 0 < dx →
        0 < trapz (List.zipWith (· * ·) prior (cauchy_like_vec data xs gam)) dx) := by
  have hg2 : (0 : ℝ) < gam ^ 2 := by positivity
  have hfac : ∀ (z d : ℝ), 0 < 1 / (1 + (z - d) ^ 2 / gam ^ 2) ∧
      1 / (1 + (z - d) ^ 2 / gam ^ 2) ≤ 1 := by
    intro z d
    have hq : (0 : ℝ) ≤ (z - d) ^ 2 / gam ^ 2 := by positivity
    constructor
    · positivity
    · rw [div_le_one (by linarith)]
      linarith
  have hat : ∀ z : ℝ, 0 < cauchy_like_at data gam z ∧ cauchy_like_at data gam z ≤ 1 := by
    intro z
    unfold cauchy_like_at
    constructor
    · refine List.prod_pos fun u hu => ?_
      simp only [List.mem_map] at hu
      obtain ⟨d, _, rfl⟩ := hu
      exact (hfac z d).1
    · refine list_prod_le_one _ (fun u hu => ?_) (fun u hu => ?_) <;>
        simp only [List.mem_map] at hu <;> obtain ⟨d, _, rfl⟩ := hu
      · exact le_of_lt (hfac z d).1
      · exact (hfac z d).2
  refine ⟨hat x0, ?_, ?_⟩
  · intro y hy
    simp only [cauchy_like_vec, List.mem_map] at hy
    obtain ⟨z, _, rfl⟩ := hy
    exact hat z
  · intro hprior hlen hxs2 hdx
    refine trapz_pos _ _ ?_ ?_ hdx
    · rw [List.length_zipWith, cauchy_like_vec, List.length_map, hlen, min_self]
      exact hxs2
    · refine zipWith_mul_pos prior _ hprior ?_
      intro u hu
      simp only [cauchy_like_vec, List.mem_map] at hu
      obtain ⟨z, _, rfl⟩ := hu
      exact (hat z).1

/-- Witness for C10 at concrete inputs. -/
theorem C10_witness :
    ([(0 : ℝ)] ≠ ([] : List ℝ) ∧ (1 : ℝ) ≠ 0) ∧
      (0 < cauchy_like_at [(0 : ℝ)] 1 0 ∧ cauchy_like_at [(0 : ℝ)] 1 0 ≤ 1) ∧
        (∀ y ∈ cauchy_like_vec [(0 : ℝ)] [(0 : ℝ), 1] 1, 0 < y ∧ y ≤ 1) ∧
        ((∀ p ∈ [(1 : ℝ), 1], 0 < p) → [(1 : ℝ), 1].length = [(0 : ℝ), 1].length →
          2 ≤ [(0 : ℝ), 1].length → (0 : ℝ) < 1 →
          0 < trapz (List.zipWith (· * ·) [(1 : ℝ), 1]
            (cauchy_like_vec [(0 : ℝ)] [(0 : ℝ), 1] 1)) 1) := by
  refine ⟨⟨by simp, by norm_num⟩, ?_⟩
  exact C10_cauchy_like_in_unit_interval [(0 : ℝ)] 1 0 [(0 : ℝ), 1] [(1 : ℝ), 1] 1
    (by simp) (by norm_num)

end UnivariateBayes
